import Mathlib

/-!
Shallow embedding of the panhandlepulse.news ingestion-and-synthesis pipeline.

The embedded code comes from:
  * `apps/worker/index.js`        (feed resolver, normalizer, dedup writer)
  * `apps/worker/search_ingest.js` (GDELT search adapter, schema-adaptive writer)
  * `apps/worker/writer.js`        (synthesis engine: grouping, prompt, citations)
  * `apps/worker/db/schema.sql`    (uniqueness constraints)

Library calls that live outside the repository (the SHA-256 digest, the JS
`Date` parser, the WHATWG `URL` parser, and the network fetch composed with
the XML parse) are modelled as fields of an explicit environment `JsEnv`;
every repository-level function is embedded as a computable Lean definition
over that environment.
-/

/-- Canonical item draft produced by `parseRss` / `normalizeRssItems`:
title, link, pubDate and summary, each defaulting to the empty string. -/
structure RssItemShape where
  title : String
  link : String
  pubDate : String
  summary : String
deriving DecidableEq

/-- Environment of JavaScript library primitives used by the worker code.
Each field stands for a deterministic library function outside the repo:
`sha256hex s` is `crypto.createHash("sha256").update(s).digest("hex")`;
`parseDate s` is `new Date(s)` followed by `toISOString`, `none` when the
date is invalid; `urlHost u` is `new URL(u).host` with `""` on a parse
failure; `urlHostname u` is `new URL(u).hostname` with `""` on failure;
`probe u` is `fetchText(u)` composed with `parseRss`, `none` when the fetch
or the parse throws, otherwise the raw document and its parsed items;
`jsTrim s` is `String.prototype.trim` (whose whitespace set differs from
Lean's own trim, so it stays a library primitive). -/
structure JsEnv where
  sha256hex : String → String
  parseDate : String → Option String
  urlHost : String → String
  urlHostname : String → String
  probe : String → Option (String × List RssItemShape)
  jsTrim : String → String

/-- JavaScript `a || b` on nullable strings: the empty string and `null`
are falsy, so the left value is kept only when it is a nonempty string. -/
def jsOrO (a b : Option String) : Option String :=
  match a with
  | some s => if s = "" then b else some s
  | none => b

/-- JavaScript `a || d` where `d` is a plain string default. -/
def jsOrD (a : Option String) (d : String) : String :=
  match jsOrO a none with
  | some s => s
  | none => d

/-- From `hashItem` (`apps/worker/index.js` lines 133-135): the content
signature is the SHA-256 hex digest of the one string `title || "||" || link`
(template literal backquote-title-pipes-link). -/
def hashItem (env : JsEnv) (title link : String) : String :=
  env.sha256hex (title ++ "||" ++ link)

/-- From `toTimestamp` (`apps/worker/index.js` lines 126-131): an empty
`pubDate` or an unparseable date normalizes to `null`. -/
def toTimestamp (env : JsEnv) (pubDate : String) : Option String :=
  if pubDate = "" then none else env.parseDate pubDate

/-- A stored row of the `feed_items` table (`db/schema.sql` lines 32-41). -/
structure FeedItemRow where
  id : Nat
  sourceId : Nat
  title : String
  link : String
  publishedAt : Option String
  summary : String
  contentHash : String
deriving DecidableEq

/-- The `feed_items` table together with its serial id counter. -/
structure FeedDb where
  rows : List FeedItemRow
  nextId : Nat
deriving DecidableEq

def emptyFeedDb : FeedDb := { rows := [], nextId := 1 }

/-- From `insertFeedItem` (`apps/worker/index.js` lines 261-273) together
with the unique index `feed_items_source_hash_unique` on
`(source_id, content_hash)` (`db/schema.sql` lines 43-45): the insert is
`ON CONFLICT (source_id, content_hash) DO NOTHING`. -/
def insertFeedItem (env : JsEnv) (db : FeedDb) (sourceId : Nat)
    (item : RssItemShape) : FeedDb :=
  let contentHash := hashItem env item.title item.link
  let publishedAt := toTimestamp env item.pubDate
  if db.rows.any (fun r => r.sourceId == sourceId && r.contentHash == contentHash) then
    db
  else
    { rows := db.rows ++
        [{ id := db.nextId, sourceId := sourceId, title := item.title,
           link := item.link, publishedAt := publishedAt,
           summary := item.summary, contentHash := contentHash }],
      nextId := db.nextId + 1 }

/-- From the per-item loop of `runOnce` (`apps/worker/index.js` lines
313-319): `if (!it.title || !it.link) continue;` drops an item whenever its
title or its link is the empty string; otherwise `insertFeedItem` runs and
`insertedForSource` is incremented.  Returns the updated table and the
`insertedForSource` counter. -/
def ingestItems (env : JsEnv) (db : FeedDb) (sourceId : Nat)
    (items : List RssItemShape) : FeedDb × Nat :=
  items.foldl
    (fun acc it =>
      if it.title = "" ∨ it.link = "" then acc
      else (insertFeedItem env acc.1 sourceId it, acc.2 + 1))
    (db, 0)

/-- A fixed environment used to instantiate the oracle parameters in
concrete, closed checks; its fields are arbitrary computable stand-ins. -/
def sampleEnv : JsEnv :=
  { sha256hex := fun s => s
    parseDate := fun _ => none
    jsTrim := fun s => s
    urlHost := fun s => if s = "https://ex.com" then "ex.com" else ""
    urlHostname := fun _ => ""
    probe := fun u =>
      if u = "A" then some ("", [])
      else if u = "https://ex.com/feed/" then
        some ("doc", [{ title := "t", link := "l", pubDate := "", summary := "" }])
      else none }

/-- Catalog source entry as flattened by `flattenSources`
(`apps/worker/index.js` lines 36-50). -/
structure SourceEntry where
  state : String
  county : String
  sourceName : String
  websiteUrl : String
  rssUrl : String
  enabled : Bool
deriving DecidableEq

/-- First-occurrence de-duplication, the semantics of the JavaScript
`[...new Set(candidates)]` spread (insertion order, first occurrence kept). -/
def dedupFirstAux {α : Type} [DecidableEq α] (seen : List α) : List α → List α
  | [] => []
  | x :: xs =>
    if x ∈ seen then dedupFirstAux seen xs
    else x :: dedupFirstAux (x :: seen) xs

def dedupFirst {α : Type} [DecidableEq α] (l : List α) : List α :=
  dedupFirstAux [] l

/-- The fixed derived candidate paths pushed by `buildCandidateFeeds`
(`apps/worker/index.js` lines 154-168), in source order: five common blog
feed suffixes followed by four CivicPlus endpoints. -/
def derivedFeedPaths (host : String) : List String :=
  [ "https://" ++ host ++ "/feed/"
  , "https://" ++ host ++ "/feed"
  , "https://" ++ host ++ "/rss"
  , "https://" ++ host ++ "/rss.xml"
  , "https://" ++ host ++ "/atom.xml"
  , "https://" ++ host ++ "/RSSFeed.aspx?CID=All-newsflash.xml&ModID=1"
  , "https://" ++ host ++ "/RSSFeed.aspx?CID=All-0&ModID=63"
  , "https://" ++ host ++ "/RSS.aspx"
  , "https://" ++ host ++ "/CivicAlerts.aspx?rss=true" ]

/-- From `buildCandidateFeeds` (`apps/worker/index.js` lines 145-172):
the trimmed explicit `rss_url` first (when nonempty), then the derived
paths for the site host (when `safeUrlHost` yields a host), de-duplicated
keeping first occurrences. -/
def buildCandidateFeeds (env : JsEnv) (src : SourceEntry) : List String :=
  let rss := env.jsTrim src.rssUrl
  let base := if rss = "" then [] else [rss]
  let host := env.urlHost (env.jsTrim src.websiteUrl)
  if host = "" then base
  else dedupFirst (base ++ derivedFeedPaths host)

/-- Result record of `resolveFeedUrl`: the winning feed url, its raw
document, and its parsed items; all empty when no candidate succeeded. -/
structure ResolvedFeed where
  feedUrl : String
  xml : String
  items : List RssItemShape
deriving DecidableEq

/-- From `resolveFeedUrl` (`apps/worker/index.js` lines 174-190): probe the
candidates in order; a thrown fetch/parse (`env.probe = none`) or a parse
to zero items moves to the next candidate; the first candidate with at
least one item wins; exhaustion yields the empty record.  The second
component additionally records the list of candidates that were attempted
(each loop iteration issues exactly one fetch), a ghost trace used to state
the short-circuit property. -/
def resolveFeedUrl (env : JsEnv) : List String → ResolvedFeed × List String
  | [] => ({ feedUrl := "", xml := "", items := [] }, [])
  | url :: rest =>
    match env.probe url with
    | none =>
      let r := resolveFeedUrl env rest
      (r.1, url :: r.2)
    | some (xml, items) =>
      if items.length > 0 then ({ feedUrl := url, xml := xml, items := items }, [url])
      else
        let r := resolveFeedUrl env rest
        (r.1, url :: r.2)

/-- One typed Atom link object: its `rel` and `href` attributes, each
possibly absent. -/
structure AtomLink where
  rel : Option String
  href : Option String
deriving DecidableEq

/-- The JavaScript value found at `entry.link` after XML parsing: an array
of link objects, a single link object, or absent. -/
inductive AtomLinkField where
  | missing : AtomLinkField
  | single : AtomLink → AtomLinkField
  | multi : List AtomLink → AtomLinkField
deriving DecidableEq

/-- From the Atom branch of `parseRss` (`apps/worker/index.js` lines
113-120) and `normalizeRssItems` (writer variant lines 74-88): on an array
of links, `e.link.find((l) => l["@_rel"] === "alternate")?.["@_href"] || ""`
picks the first link whose `rel` is exactly `"alternate"` and takes its
`href`; a single link object yields its `href`; every missing value
defaults to the empty string. -/
def atomLinkOf : AtomLinkField → String
  | .missing => ""
  | .single l => l.href.getD ""
  | .multi ls =>
    match ls.find? (fun l => decide (l.rel = some "alternate")) with
    | some l => l.href.getD ""
    | none => ""

/-- One Atom entry as consumed by the Atom branch of `parseRss`: the title
and summary are modelled after their `#text` extraction, `link` keeps its
raw shape. -/
structure AtomEntry where
  title : Option String
  link : AtomLinkField
  updated : Option String
  published : Option String
  summary : Option String
deriving DecidableEq

/-- From the Atom branch of `parseRss` (`apps/worker/index.js` lines
113-120): an entry maps to a canonical draft whose link is the
alternate-link selection, whose pubDate is `updated || published || ""`,
and whose title and summary default to the empty string. -/
def normalizeAtomEntry (e : AtomEntry) : RssItemShape :=
  { title := jsOrD e.title ""
    link := atomLinkOf e.link
    pubDate := jsOrD (jsOrO e.updated e.published) ""
    summary := jsOrD e.summary "" }

/-- From `isValidKeyword` (`apps/worker/search_ingest.js` lines 95-97):
`q && String(q).trim().length >= MIN_KEYWORD_LEN` — the empty string is
falsy, otherwise the trimmed length is compared against the minimum. -/
def isValidKeyword (env : JsEnv) (minKeywordLen : Nat) (q : String) : Bool :=
  if q = "" then false else decide (minKeywordLen ≤ (env.jsTrim q).length)

/-- The GDELT request assembled by `buildGdeltUrl`
(`apps/worker/search_ingest.js` lines 99-109); the JavaScript serializes
these parameters into a query string with fixed `mode=ArtList`,
`format=json`, `sort=datedesc`. -/
structure GdeltRequest where
  query : String
  startdatetime : String
  enddatetime : String
  maxrecords : Nat
deriving DecidableEq

def buildGdeltUrl (query startdatetime enddatetime : String)
    (maxrecords : Nat) : GdeltRequest :=
  { query := query, startdatetime := startdatetime,
    enddatetime := enddatetime, maxrecords := maxrecords }

/-- Outcome of the pre-flight keyword check for one configured query in
the per-region loop of `run` (`apps/worker/search_ingest.js` lines
300-314): either the query is skipped before any request with a
`SKIP_KEYWORD_TOO_SHORT` log, or a request is built and issued. -/
inductive QueryAction where
  | skippedTooShort : String → QueryAction
  | issued : GdeltRequest → QueryAction
deriving DecidableEq

/-- From `run` (`apps/worker/search_ingest.js` lines 300-314): the raw
configured query is trimmed (`String(rawQuery || "").trim()`), validated
with `isValidKeyword`, and either skipped (logged, `continue`) or turned
into a GDELT request. -/
def processQuery (env : JsEnv) (minKeywordLen : Nat) (startStamp endStamp : String)
    (maxrecords : Nat) (rawQuery : String) : QueryAction :=
  let query := env.jsTrim rawQuery
  if isValidKeyword env minKeywordLen query then
    .issued (buildGdeltUrl query startStamp endStamp maxrecords)
  else
    .skippedTooShort query

/-- The per-query loop of `run` over one region's configured query list:
every query is processed in order; a skipped query never stops the
processing of the remaining queries. -/
def runQueries (env : JsEnv) (minKeywordLen : Nat) (startStamp endStamp : String)
    (maxrecords : Nat) (queries : List String) : List QueryAction :=
  queries.map (processQuery env minKeywordLen startStamp endStamp maxrecords)

/-- One GDELT article record as consumed by `buildRowForTable`
(`apps/worker/search_ingest.js` lines 152-163); absent JSON fields are
`none`. -/
structure GdeltArticle where
  url : Option String
  urlsource : Option String
  sourceurl : Option String
  title : Option String
  seendate : Option String
  socialimage : Option String
  image : Option String
  summary : Option String
  description : Option String
deriving DecidableEq

/-- From `parseGdeltSeenDate` (`apps/worker/search_ingest.js` lines
83-93): a seendate shorter than 14 characters, or whose first 14
characters are not all digits, yields `null`; otherwise the compact UTC
stamp is kept (the JavaScript converts it to a `Date`; the model keeps the
14-character stamp itself as the timestamp value). -/
def parseGdeltSeenDate (seendate : Option String) : Option String :=
  match seendate with
  | none => none
  | some s =>
    if s.length < 14 then none
    else if (s.take 14).all Char.isDigit then some (s.take 14)
    else none

/-- A row as assembled for the adaptive insert: an ordered association
list from column name to a nullable value (`none` is SQL `NULL`; a column
absent from the list was never assigned). -/
def AdaptiveRow : Type := List (String × Option String)

instance : DecidableEq AdaptiveRow :=
  inferInstanceAs (DecidableEq (List (String × Option String)))

/-- From `pickUniqueKeyColumn` (`apps/worker/search_ingest.js` lines
144-150): the first of the fixed candidate column names present in the
detected column set, else none (insert-only). -/
def pickUniqueKeyColumn (cols : List String) : Option String :=
  ["url", "link", "canonical_url", "guid", "external_id", "source_url"].find?
    (fun c => cols.contains c)

/-- From `buildRowForTable` (`apps/worker/search_ingest.js` lines
152-218): derive the candidate values from the article, then assign each
recognized column that exists in the detected column set, in source order.
No assigned value is ever `undefined` (each falls back to `null`), so the
later `row[k] !== undefined` filter keeps every assigned column. -/
def buildRowForTable (env : JsEnv) (now : String) (cols : List String)
    (regionTag state query : String) (a : GdeltArticle) : AdaptiveRow :=
  let url := jsOrO a.url (jsOrO a.urlsource (jsOrO a.sourceurl none))
  let title := jsOrO a.title none
  let publishedAt := parseGdeltSeenDate a.seendate
  let image := jsOrO a.socialimage (jsOrO a.image none)
  let summary := jsOrO a.summary (jsOrO a.description none)
  let domain := match url with
    | none => none
    | some u => let h := env.urlHostname u; if h = "" then none else some h
  let entries : AdaptiveRow :=
    [ ("state", some state)
    , ("state_code", some state)
    , ("state_abbr", some state)
    , ("url", url)
    , ("link", url)
    , ("canonical_url", url)
    , ("source_url", url)
    , ("title", title)
    , ("headline", title)
    , ("provider", some "GDELT")
    , ("source_name", some "GDELT")
    , ("origin", some "GDELT")
    , ("region_tag", some regionTag)
    , ("region", some regionTag)
    , ("query", some query)
    , ("domain", domain)
    , ("host", domain)
    , ("published_at", publishedAt)
    , ("published", publishedAt)
    , ("pub_date", publishedAt)
    , ("fetched_at", some now)
    , ("ingested_at", some now)
    , ("created_at", some now)
    , ("summary", summary)
    , ("description", summary)
    , ("excerpt", summary)
    , ("image", image)
    , ("image_url", image)
    , ("thumbnail", image) ]
  entries.filter (fun e => cols.contains e.1)

/-- Truthiness of `row[c]` in JavaScript: an unassigned column
(`undefined`), a `null` value, and the empty string are all falsy. -/
def cellTruthy (cell : Option (Option String)) : Bool :=
  match cell with
  | some (some s) => decide (s ≠ "")
  | _ => false

/-- Merge for `ON CONFLICT ... DO UPDATE SET k = EXCLUDED.k`: every
non-key column listed in the incoming row overwrites the stored value;
stored columns the incoming row does not carry are kept. -/
def mergeRow (stored incoming : AdaptiveRow) (keyCol : String) : AdaptiveRow :=
  stored.map (fun kv =>
    if kv.1 = keyCol then kv
    else match incoming.lookup kv.1 with
      | some v => (kv.1, v)
      | none => kv)

/-- The database effect of the insert statement built by `buildInsertSql`
(`apps/worker/search_ingest.js` lines 220-232): with a conflict column and
at least one update column, upsert-with-overwrite on the conflict value;
otherwise a plain insert (append). -/
def applyAdaptiveInsert (db : List AdaptiveRow) (conflictColumn : Option String)
    (row : AdaptiveRow) : List AdaptiveRow :=
  match conflictColumn with
  | none => db ++ [row]
  | some c =>
    let updateColumns := (row.map Prod.fst).filter (fun k => decide (k ≠ c))
    if updateColumns.isEmpty then db ++ [row]
    else if db.any (fun r => r.lookup c == row.lookup c) then
      db.map (fun r => if r.lookup c == row.lookup c then mergeRow r row c else r)
    else db ++ [row]

/-- Return record of `writeOne`: `didWrite` with an optional local-skip
reason, as in `{ didWrite: false, reason: ... }` / `{ didWrite: true }`. -/
structure WriteOutcome where
  didWrite : Bool
  reason : Option String
deriving DecidableEq

/-- From `writeOne` (`apps/worker/search_ingest.js` lines 234-263): build
the adaptive row; reject locally (no SQL) when no recognized column
matched, when a present `state` column would receive a falsy value, or
when the conflict column's value is falsy; otherwise run the insert and
report `didWrite: true`. -/
def writeOne (env : JsEnv) (now : String) (db : List AdaptiveRow)
    (cols : List String) (conflictColumn : Option String)
    (regionTag state query : String) (a : GdeltArticle) :
    List AdaptiveRow × WriteOutcome :=
  let row := buildRowForTable env now cols regionTag state query a
  if row.isEmpty then
    (db, { didWrite := false, reason := some "no_matching_columns" })
  else if cols.contains "state" && !(cellTruthy (row.lookup "state")) then
    (db, { didWrite := false, reason := some "missing_state" })
  else
    match conflictColumn with
    | some c =>
      if !(cellTruthy (row.lookup c)) then
        (db, { didWrite := false, reason := some ("missing_conflict_value:" ++ c) })
      else
        (applyAdaptiveInsert db (some c) row, { didWrite := true, reason := none })
    | none =>
      (applyAdaptiveInsert db none row, { didWrite := true, reason := none })

/-- One row of the query in `loadRecentFeedItems` (writer variant lines
57-89): a feed item joined with its source's state, county and name;
groups are keyed by state/county and capped at `limitPerCounty` (40). -/
structure GroupItem where
  id : Nat
  title : String
  link : String
  publishedAt : Option String
  summary : String
  state : String
  county : String
  sourceName : String
deriving DecidableEq

/-- A stored row of the `stories` table (`db/schema.sql` lines 56-78). -/
structure StoryRow where
  id : Nat
  state : String
  county : String
  storyType : String
  title : String
  dek : String
  bodyMarkdown : String
  bullets : List String
  windowStart : String
  windowEnd : String
  modelName : String
  promptVersion : String
  status : String
deriving DecidableEq

/-- A stored row of the `story_sources` table (`db/schema.sql` lines
84-91): the citation link plus denormalized link/title/published-at. -/
structure StorySourceRow where
  storyId : Nat
  feedItemId : Nat
  sourceLink : String
  sourceTitle : String
  sourcePublishedAt : Option String
deriving DecidableEq

/-- The mutable state of one writer run: the two story tables, the next
fresh story id, and the created/skipped/failed counters of `main`. -/
structure WriterState where
  stories : List StoryRow
  storySources : List StorySourceRow
  nextStoryId : Nat
  created : Nat
  skipped : Nat
  failed : Nat
deriving DecidableEq

def emptyWriterState : WriterState :=
  { stories := [], storySources := [], nextStoryId := 1,
    created := 0, skipped := 0, failed := 0 }

/-- The key test of `storyAlreadyExists` (writer variant lines 135-149):
a stored story matches when state, county, `story_type = 'roundup'` and
both window bounds agree. -/
def matchesStoryKey (s c wS wE : String) (r : StoryRow) : Bool :=
  r.state == s && r.county == c && r.storyType == "roundup" &&
    r.windowStart == wS && r.windowEnd == wE

/-- From `storyAlreadyExists` (writer variant lines 135-149): `SELECT id
... LIMIT 1` followed by `rowCount > 0`. -/
def storyAlreadyExists (stories : List StoryRow) (s c wS wE : String) : Bool :=
  stories.any (matchesStoryKey s c wS wE)

/-- From `insertStory` (writer variant lines 151-163): append a story row
with `story_type = 'roundup'`, `prompt_version = 'v1'`,
`status = 'published'`, returning its fresh id. -/
def insertStory (st : WriterState) (s c wS wE title dek bodyMarkdown modelName : String)
    (bullets : List String) : WriterState × Nat :=
  let id := st.nextStoryId
  ({ st with
      stories := st.stories ++
        [{ id := id, state := s, county := c, storyType := "roundup",
           title := title, dek := dek, bodyMarkdown := bodyMarkdown,
           bullets := bullets, windowStart := wS, windowEnd := wE,
           modelName := modelName, promptVersion := "v1", status := "published" }],
      nextStoryId := id + 1 }, id)

/-- From `buildPrompt` (writer variant lines 91-106): the numbered source
list supplied to the generation call is `items.slice(0, 20)`; entry `idx`
of the slice is rendered with the number `idx + 1`. -/
def promptOfferedItems (items : List GroupItem) : List GroupItem :=
  items.take 20

/-- From `insertStorySources` (writer variant lines 165-177): collect the
model's `used_source_indexes` into a `Set` (first-occurrence order), fall
back to the first six items when the set is empty, otherwise resolve each
index `idx` against the full item list as `items[idx - 1]`, dropping
indexes that resolve to nothing. -/
def chosenCitations (items : List GroupItem) (usedIndexes : List Int) :
    List GroupItem :=
  let usedSet := dedupFirst usedIndexes
  if usedSet.isEmpty then items.take 6
  else usedSet.filterMap (fun idx =>
    if 1 ≤ idx then items[(idx - 1).toNat]? else none)

/-- The citation row written for one chosen item. -/
def citationRow (storyId : Nat) (it : GroupItem) : StorySourceRow :=
  { storyId := storyId, feedItemId := it.id, sourceLink := it.link,
    sourceTitle := it.title, sourcePublishedAt := it.publishedAt }

/-- One `INSERT ... ON CONFLICT DO NOTHING` against the
`(story_id, feed_item_id)` primary key of `story_sources`. -/
def insertCitation (db : List StorySourceRow) (storyId : Nat)
    (it : GroupItem) : List StorySourceRow :=
  if db.any (fun r => r.storyId == storyId && r.feedItemId == it.id) then db
  else db ++ [citationRow storyId it]

/-- From the insertion loop of `insertStorySources` (writer variant lines
179-189): insert a citation row for each chosen item in order. -/
def insertStorySources (db : List StorySourceRow) (storyId : Nat)
    (items : List GroupItem) (usedIndexes : List Int) : List StorySourceRow :=
  (chosenCitations items usedIndexes).foldl
    (fun acc it => insertCitation acc storyId it) db

/-- The parsed generation payload (`JSON.parse(ai.text)` in `main`,
writer variant lines 235-240); absent keys are `none`. -/
structure GenParsed where
  title : Option String
  dek : Option String
  bullets : Option (List String)
  bodyMarkdown : Option String
  usedSourceIndexes : Option (List Int)
deriving DecidableEq

/-- Outcome of the generation call for one group: a transport or HTTP
failure of `callAI`, a payload that is not valid JSON, or a parsed
payload together with the reported model name. -/
inductive AiOutcome where
  | transportError : AiOutcome
  | badJson : AiOutcome
  | parsed : GenParsed → Option String → AiOutcome
deriving DecidableEq

/-- From the per-group body of `main` (writer variant lines 210-262):
skip groups of fewer than 3 items; skip groups whose story already
exists; otherwise call the generation service — any failure marks the
group failed — and on success insert the story (with the `||` defaults of
lines 242-254) and its citations. -/
def processGroup (st : WriterState) (s c : String) (items : List GroupItem)
    (wS wE : String) (ai : AiOutcome) : WriterState :=
  if items.length < 3 then { st with skipped := st.skipped + 1 }
  else if storyAlreadyExists st.stories s c wS wE then
    { st with skipped := st.skipped + 1 }
  else
    match ai with
    | .transportError => { st with failed := st.failed + 1 }
    | .badJson => { st with failed := st.failed + 1 }
    | .parsed p model =>
      let r := insertStory st s c wS wE
        (jsOrD p.title (c ++ " County Roundup"))
        (jsOrD p.dek "")
        (jsOrD p.bodyMarkdown "")
        (jsOrD model "")
        (p.bullets.getD [])
      let st1 := r.1
      let storyId := r.2
      let st2 := { st1 with
        storySources := insertStorySources st1.storySources storyId items
          (p.usedSourceIndexes.getD []) }
      { st2 with created := st2.created + 1 }

/-- A candidate fails in the sense of `resolveFeedUrl`: its probe throws
(fetch or parse error) or it parses to zero items. -/
def probeFails (env : JsEnv) (u : String) : Bool :=
  match env.probe u with
  | none => true
  | some r => r.2.isEmpty

/-- Uniqueness property of the `stories` table claimed by the spec: at
most one row per (state, county, story_type `roundup`, window start,
window end). -/
def roundupUnique (stories : List StoryRow) : Prop :=
  ∀ s c wS wE, (stories.filter (matchesStoryKey s c wS wE)).length ≤ 1

/-- Source entry used in concrete resolver checks. -/
def srcW : SourceEntry :=
  { state := "FL", county := "Bay", sourceName := "Src",
    websiteUrl := "https://ex.com", rssUrl := "A", enabled := true }

/-- Three-item county group used in concrete writer checks. -/
def wItems : List GroupItem :=
  [ { id := 1, title := "t1", link := "l1", publishedAt := none, summary := "",
      state := "FL", county := "Bay", sourceName := "s" }
  , { id := 2, title := "t2", link := "l2", publishedAt := none, summary := "",
      state := "FL", county := "Bay", sourceName := "s" }
  , { id := 3, title := "t3", link := "l3", publishedAt := none, summary := "",
      state := "FL", county := "Bay", sourceName := "s" } ]

/-- A generation payload with every key absent. -/
def wGenParsed : GenParsed :=
  { title := none, dek := none, bullets := none, bodyMarkdown := none,
    usedSourceIndexes := none }

/-- A 21-item county group (below the 40-item group cap): item `n` of the
list carries id `n + 1`, so ids coincide with the 1-based prompt numbering. -/
def c1Items : List GroupItem :=
  (List.range 21).map (fun n =>
    { id := n + 1, title := "t", link := "l", publishedAt := none,
      summary := "", state := "FL", county := "Bay", sourceName := "s" })

/-- Column set used in concrete adaptive-writer checks. -/
def c8Cols : List String := ["state", "url", "title"]

/-- A GDELT article with a url and title, all other fields absent. -/
def c8Article : GdeltArticle :=
  { url := some "http://a", urlsource := none, sourceurl := none,
    title := some "T", seendate := none, socialimage := none,
    image := none, summary := none, description := none }

/-- The adaptive row `writeOne` assembles for `c8Article` over `c8Cols`. -/
def c8Row : AdaptiveRow :=
  buildRowForTable sampleEnv "now" c8Cols "tag" "FL" "q" c8Article

/-- A GDELT article with every field absent. -/
def emptyGdeltArticle : GdeltArticle :=
  { url := none, urlsource := none, sourceurl := none, title := none,
    seendate := none, socialimage := none, image := none, summary := none,
    description := none }

/-- The story row inserted by a successful `processGroup` (the `||`
defaults of `main`, writer variant lines 242-254, fed to `insertStory`). -/
def storyRowOf (id : Nat) (s c wS wE : String) (p : GenParsed)
    (model : Option String) : StoryRow :=
  { id := id, state := s, county := c, storyType := "roundup",
    title := jsOrD p.title (c ++ " County Roundup"), dek := jsOrD p.dek "",
    bodyMarkdown := jsOrD p.bodyMarkdown "", bullets := p.bullets.getD [],
    windowStart := wS, windowEnd := wE, modelName := jsOrD model "",
    promptVersion := "v1", status := "published" }

/-! ### Helper lemmas -/

/-- After an insert, the table always holds a row carrying the inserted
item's source id and content signature. -/
theorem insertFeedItem_dup (env : JsEnv) (db : FeedDb) (s : Nat)
    (it1 it2 : RssItemShape)
    (h : hashItem env it2.title it2.link = hashItem env it1.title it1.link) :
    insertFeedItem env (insertFeedItem env db s it1) s it2
      = insertFeedItem env db s it1 := by
  by_cases h1 : db.rows.any
      (fun r => r.sourceId == s && r.contentHash == hashItem env it1.title it1.link)
  · have h2 : db.rows.any
        (fun r => r.sourceId == s && r.contentHash == hashItem env it2.title it2.link) := by
      rw [h]; exact h1
    simp [insertFeedItem, h1, h2]
  · simp [insertFeedItem, h1, h, List.any_append]

/-! ### C4 — ingest idempotence -/

/-- C4: the content signature `hash(title, link)` is deterministic (equal
inputs give equal signatures), and ingesting the same draft twice for the
same source is a no-op on the second insert — the table after the second
insert equals the table after the first, and from an empty table exactly
one `feed_items` row is stored. -/
theorem ingest_same_draft_idempotent (env : JsEnv) (sourceId : Nat)
    (item : RssItemShape) (db : FeedDb) (t l t2 l2 : String) :
    (t = t2 → l = l2 → hashItem env t l = hashItem env t2 l2)
    ∧ insertFeedItem env (insertFeedItem env db sourceId item) sourceId item
        = insertFeedItem env db sourceId item
    ∧ (insertFeedItem env (insertFeedItem env emptyFeedDb sourceId item)
        sourceId item).rows.length = 1 := by
  refine ⟨fun ht hl => by rw [ht, hl], insertFeedItem_dup env db sourceId item item rfl, ?_⟩
  rw [insertFeedItem_dup env emptyFeedDb sourceId item item rfl]
  simp [insertFeedItem, emptyFeedDb]

/-- Closed instance of `ingest_same_draft_idempotent` at a concrete draft,
discharging its hypotheses. -/
theorem ingest_same_draft_idempotent_witness :
    hashItem sampleEnv "t" "l" = hashItem sampleEnv "t" "l"
    ∧ insertFeedItem sampleEnv
        (insertFeedItem sampleEnv emptyFeedDb 1
          { title := "t", link := "l", pubDate := "", summary := "" }) 1
        { title := "t", link := "l", pubDate := "", summary := "" }
      = insertFeedItem sampleEnv emptyFeedDb 1
          { title := "t", link := "l", pubDate := "", summary := "" } :=
  ⟨(ingest_same_draft_idempotent sampleEnv 1
      { title := "t", link := "l", pubDate := "", summary := "" }
      emptyFeedDb "t" "l" "t" "l").1 rfl rfl,
   (ingest_same_draft_idempotent sampleEnv 1
      { title := "t", link := "l", pubDate := "", summary := "" }
      emptyFeedDb "t" "l" "t" "l").2.1⟩

/-! ### C10 — the signature preimage is not injective -/

/-- C10: the signature hashes the single string `title ++ "||" ++ link`,
so the distinct drafts `("a||b", "c")` and `("a", "b||c")` have equal
concatenated preimages, equal signatures, and deduplicate to a single
stored `feed_items` row under the same source. -/
theorem content_signature_not_injective (env : JsEnv) (sourceId : Nat) :
    hashItem env "a||b" "c" = hashItem env "a" "b||c"
    ∧ ¬("a||b" = "a" ∧ "c" = "b||c")
    ∧ (insertFeedItem env
        (insertFeedItem env emptyFeedDb sourceId
          { title := "a||b", link := "c", pubDate := "", summary := "" }) sourceId
        { title := "a", link := "b||c", pubDate := "", summary := "" }).rows.length
      = 1 := by
  have hpre : ("a||b" : String) ++ "||" ++ "c" = ("a" : String) ++ "||" ++ "b||c" := by
    decide
  have hh : hashItem env "a||b" "c" = hashItem env "a" "b||c" :=
    congrArg env.sha256hex hpre
  refine ⟨hh, by decide, ?_⟩
  rw [insertFeedItem_dup env emptyFeedDb sourceId
    { title := "a||b", link := "c", pubDate := "", summary := "" }
    { title := "a", link := "b||c", pubDate := "", summary := "" } hh.symm]
  simp [insertFeedItem, emptyFeedDb]

/-! ### C7 — which items are dropped during ingestion -/

/-- C7 counterexample: an item with a nonempty link but an empty title is
not persisted — the per-item loop of `runOnce` skips it (`!it.title`
short-circuits), storing zero rows, so items are not dropped only when
both fields are missing. -/
theorem ingest_drop_counterexample :
    ingestItems sampleEnv emptyFeedDb 1
      [{ title := "", link := "http://x", pubDate := "", summary := "" }]
      = (emptyFeedDb, 0)
    ∧ ingestItems sampleEnv emptyFeedDb 1
      [{ title := "t", link := "", pubDate := "", summary := "" }]
      = (emptyFeedDb, 0) := by
  constructor <;> rfl

/-- C7 amended: during ingestion an item is dropped exactly when its title
is empty or its link is empty; an item is persisted (insert attempted)
only when both title and link are nonempty. -/
theorem ingest_drop_condition (env : JsEnv) (db : FeedDb) (sourceId : Nat)
    (it : RssItemShape) :
    (it.title = "" ∨ it.link = "" → ingestItems env db sourceId [it] = (db, 0))
    ∧ (it.title ≠ "" → it.link ≠ "" →
        ingestItems env db sourceId [it] = (insertFeedItem env db sourceId it, 1)) := by
  constructor
  · intro h
    simp [ingestItems, h]
  · intro h1 h2
    have h : ¬(it.title = "" ∨ it.link = "") := by
      rintro (h | h)
      · exact h1 h
      · exact h2 h
    simp [ingestItems, h]

/-- Closed instance of `ingest_drop_condition`: a draft with both fields
nonempty is persisted. -/
theorem ingest_drop_condition_witness :
    ingestItems sampleEnv emptyFeedDb 1
      [{ title := "t", link := "l", pubDate := "", summary := "" }]
      = (insertFeedItem sampleEnv emptyFeedDb 1
          { title := "t", link := "l", pubDate := "", summary := "" }, 1) :=
  (ingest_drop_condition sampleEnv emptyFeedDb 1
    { title := "t", link := "l", pubDate := "", summary := "" }).2
    (by decide) (by decide)

/-! ### C9 — pre-flight keyword length gate -/

/-- C9: with a positive minimum keyword length, a configured query whose
trimmed length is below the minimum is skipped before any request is
built, a query whose trimmed length reaches the minimum yields an issued
GDELT request for the trimmed query, and the per-query loop always
continues with the remaining queries.  (`isValidKeyword` trims the
already-trimmed query once more, hence the doubled `jsTrim` in the length
conditions; `hTrimEmpty` records that trimming the empty string yields the
empty string.) -/
theorem keyword_gate (env : JsEnv) (minKeywordLen : Nat)
    (startStamp endStamp : String) (maxrecords : Nat) (rawQuery : String)
    (queries : List String) (hMin : 1 ≤ minKeywordLen)
    (hTrimEmpty : env.jsTrim "" = "") :
    ((env.jsTrim (env.jsTrim rawQuery)).length < minKeywordLen →
      processQuery env minKeywordLen startStamp endStamp maxrecords rawQuery
        = .skippedTooShort (env.jsTrim rawQuery))
    ∧ (minKeywordLen ≤ (env.jsTrim (env.jsTrim rawQuery)).length →
      processQuery env minKeywordLen startStamp endStamp maxrecords rawQuery
        = .issued (buildGdeltUrl (env.jsTrim rawQuery) startStamp endStamp maxrecords))
    ∧ runQueries env minKeywordLen startStamp endStamp maxrecords (rawQuery :: queries)
        = processQuery env minKeywordLen startStamp endStamp maxrecords rawQuery
          :: runQueries env minKeywordLen startStamp endStamp maxrecords queries := by
  refine ⟨?_, ?_, rfl⟩
  · intro hShort
    have hNotValid : isValidKeyword env minKeywordLen (env.jsTrim rawQuery) = false := by
      by_cases hEmpty : env.jsTrim rawQuery = ""
      · simp [isValidKeyword, hEmpty]
      · simp [isValidKeyword, hEmpty, Nat.not_le.mpr hShort]
    simp [processQuery, hNotValid]
  · intro hLong
    have hEmpty : env.jsTrim rawQuery ≠ "" := by
      intro hEq
      rw [hEq, hTrimEmpty] at hLong
      simp at hLong
      omega
    have hValid : isValidKeyword env minKeywordLen (env.jsTrim rawQuery) = true := by
      simp [isValidKeyword, hEmpty, hLong]
    simp [processQuery, hValid]

/-- Closed instance of `keyword_gate`: with the default minimum of 4, a
3-letter keyword is skipped and a real county query is issued. -/
theorem keyword_gate_witness :
    processQuery sampleEnv 4 "s" "e" 50 "abc" = .skippedTooShort "abc"
    ∧ processQuery sampleEnv 4 "s" "e" 50 "Bay County Florida"
      = .issued (buildGdeltUrl "Bay County Florida" "s" "e" 50) :=
  ⟨(keyword_gate sampleEnv 4 "s" "e" 50 "abc" [] (by decide) rfl).1 (by decide),
   (keyword_gate sampleEnv 4 "s" "e" 50 "Bay County Florida" [] (by decide) rfl).2.1
     (by decide)⟩

/-! ### C5 — alternate-link selection for Atom entries -/

/-- A `find?` over an appended list skips a prefix on which the predicate
fails everywhere. -/
theorem find?_append_of_prefix_false {α : Type} (p : α → Bool) :
    ∀ (pre rest : List α), (∀ l ∈ pre, p l = false) →
      (pre ++ rest).find? p = rest.find? p := by
  intro pre
  induction pre with
  | nil => intro rest _; rfl
  | cons x xs ih =>
    intro rest h
    have hx : p x = false := h x (List.mem_cons_self x xs)
    have hxs : ∀ l ∈ xs, p l = false := fun l hl => h l (List.mem_cons_of_mem x hl)
    simp [List.find?, hx, ih rest hxs]

/-- C5: an Atom entry carrying multiple typed links normalizes to the href
of the link whose `rel` is `"alternate"` — any run of non-alternate links
before it (in particular a non-alternate first link) is skipped, never
selected. -/
theorem atom_alternate_selected (t u p s : Option String)
    (pre post : List AtomLink) (alt : AtomLink)
    (hpre : ∀ l ∈ pre, l.rel ≠ some "alternate")
    (halt : alt.rel = some "alternate") :
    (normalizeAtomEntry
      { title := t, link := .multi (pre ++ alt :: post),
        updated := u, published := p, summary := s }).link
      = alt.href.getD "" := by
  have hpre2 : ∀ l ∈ pre, (fun l => decide (l.rel = some "alternate")) l = false := by
    intro l hl
    simp [hpre l hl]
  have hfind : (pre ++ alt :: post).find?
      (fun l => decide (l.rel = some "alternate")) = some alt := by
    rw [find?_append_of_prefix_false _ pre (alt :: post) hpre2]
    simp [List.find?, halt]
  simp [normalizeAtomEntry, atomLinkOf, hfind]

/-- Closed instance of `atom_alternate_selected`: a non-alternate `self`
link listed first is passed over in favour of the later alternate link. -/
theorem atom_alternate_selected_witness :
    (normalizeAtomEntry
      { title := some "T",
        link := .multi
          [ { rel := some "self", href := some "http://self" }
          , { rel := some "alternate", href := some "http://alt" } ],
        updated := none, published := none, summary := none }).link
      = "http://alt" :=
  atom_alternate_selected (some "T") none none none
    [{ rel := some "self", href := some "http://self" }] []
    { rel := some "alternate", href := some "http://alt" }
    (by decide) rfl

/-! ### C2 — resolver candidate order -/

/-- When every candidate fails (probe throws or parses to zero items),
the resolver returns the empty record after attempting all candidates. -/
theorem resolveFeedUrl_all_fail (env : JsEnv) :
    ∀ (cs : List String), (∀ u ∈ cs, probeFails env u = true) →
      resolveFeedUrl env cs = ({ feedUrl := "", xml := "", items := [] }, cs) := by
  intro cs
  induction cs with
  | nil => intro _; rfl
  | cons u rest ih =>
    intro h
    have hu : probeFails env u = true := h u (List.mem_cons_self u rest)
    have hrest := ih (fun v hv => h v (List.mem_cons_of_mem u hv))
    cases hp : env.probe u with
    | none => simp [resolveFeedUrl, hp, hrest]
    | some r =>
      obtain ⟨x, items⟩ := r
      rw [probeFails, hp] at hu
      simp at hu
      subst hu
      simp [resolveFeedUrl, hp, hrest]

/-- The first candidate that probes to a nonempty item list wins: the
resolver returns its url, document and items, having attempted exactly
the failing prefix and the winner, and never touching later candidates. -/
theorem resolveFeedUrl_first_success (env : JsEnv) (x : String)
    (its : List RssItemShape) (hits : its ≠ []) :
    ∀ (pre : List String) (u : String) (post : List String),
      (∀ v ∈ pre, probeFails env v = true) →
      env.probe u = some (x, its) →
      resolveFeedUrl env (pre ++ u :: post)
        = ({ feedUrl := u, xml := x, items := its }, pre ++ [u]) := by
  intro pre
  induction pre with
  | nil =>
    intro u post _ hp
    have hlen : 0 < its.length := List.length_pos.mpr hits
    simp [resolveFeedUrl, hp, hlen]
  | cons v vs ih =>
    intro u post h hp
    have hv : probeFails env v = true := h v (List.mem_cons_self v vs)
    have hrec := ih u post (fun w hw => h w (List.mem_cons_of_mem v hw)) hp
    cases hq : env.probe v with
    | none => simp [resolveFeedUrl, hq, hrec]
    | some r =>
      obtain ⟨y, items⟩ := r
      rw [probeFails, hq] at hv
      simp at hv
      subst hv
      simp [resolveFeedUrl, hq, hrec]

/-- C2: the candidate list puts the explicitly configured (trimmed) feed
url first; the resolver probes candidates strictly in order — when every
candidate up to some candidate `u` fails and `u` probes to a nonempty
item list, the result is `u` with its items and only the candidates
through `u` were attempted; when every candidate fails the result is the
NotFound record (empty url, empty items, no thrown error), after
attempting all candidates. -/
theorem resolver_probes_in_order (env : JsEnv) (src : SourceEntry)
    (pre post : List String) (u x : String) (its : List RssItemShape) :
    (env.jsTrim src.rssUrl ≠ "" →
      (buildCandidateFeeds env src).head? = some (env.jsTrim src.rssUrl))
    ∧ ((∀ v ∈ buildCandidateFeeds env src, probeFails env v = true) →
      resolveFeedUrl env (buildCandidateFeeds env src)
        = ({ feedUrl := "", xml := "", items := [] }, buildCandidateFeeds env src))
    ∧ (buildCandidateFeeds env src = pre ++ u :: post →
      (∀ v ∈ pre, probeFails env v = true) →
      env.probe u = some (x, its) → its ≠ [] →
      resolveFeedUrl env (buildCandidateFeeds env src)
        = ({ feedUrl := u, xml := x, items := its }, pre ++ [u])) := by
  refine ⟨?_, ?_, ?_⟩
  · intro h
    unfold buildCandidateFeeds
    by_cases hh : env.urlHost (env.jsTrim src.websiteUrl) = ""
    · simp [hh, h]
    · simp [hh, h, dedupFirst, dedupFirstAux]
  · intro h
    exact resolveFeedUrl_all_fail env _ h
  · intro hcs h hp hits
    rw [hcs]
    exact resolveFeedUrl_first_success env x its hits pre u post h hp

/-- Closed instance of `resolver_probes_in_order`: for a source whose
explicit url `A` parses to zero items, the resolver returns the first
derived candidate that yields an item and attempts nothing after it. -/
theorem resolver_probes_in_order_witness :
    resolveFeedUrl sampleEnv (buildCandidateFeeds sampleEnv srcW)
      = ({ feedUrl := "https://ex.com/feed/", xml := "doc",
           items := [{ title := "t", link := "l", pubDate := "", summary := "" }] },
         ["A", "https://ex.com/feed/"]) :=
  (resolver_probes_in_order sampleEnv srcW ["A"]
      [ "https://ex.com/feed"
      , "https://ex.com/rss"
      , "https://ex.com/rss.xml"
      , "https://ex.com/atom.xml"
      , "https://ex.com/RSSFeed.aspx?CID=All-newsflash.xml&ModID=1"
      , "https://ex.com/RSSFeed.aspx?CID=All-0&ModID=63"
      , "https://ex.com/RSS.aspx"
      , "https://ex.com/CivicAlerts.aspx?rss=true" ]
      "https://ex.com/feed/" "doc"
      [{ title := "t", link := "l", pubDate := "", summary := "" }]).2.2
    (by decide) (by decide) rfl (by decide)

/-! ### C3 — window uniqueness of roundup stories -/

/-- When no stored story matches a key, the filter on that key is empty. -/
theorem filter_nil_of_not_exists (stories : List StoryRow) (s c wS wE : String)
    (h : storyAlreadyExists stories s c wS wE = false) :
    stories.filter (matchesStoryKey s c wS wE) = [] := by
  rw [storyAlreadyExists, List.any_eq_false] at h
  rw [List.filter_eq_nil_iff]
  exact h

/-- The inserted story row matches exactly its own group key. -/
theorem matchesStoryKey_storyRowOf (s c wS wE s2 c2 wS2 wE2 : String)
    (id : Nat) (p : GenParsed) (model : Option String) :
    matchesStoryKey s2 c2 wS2 wE2 (storyRowOf id s c wS wE p model) = true
      ↔ (s2 = s ∧ c2 = c ∧ wS2 = wS ∧ wE2 = wE) := by
  simp only [matchesStoryKey, storyRowOf, Bool.and_eq_true, beq_iff_eq]
  constructor
  · rintro ⟨⟨⟨⟨h1, h2⟩, _⟩, h3⟩, h4⟩
    exact ⟨h1.symm, h2.symm, h3.symm, h4.symm⟩
  · rintro ⟨h1, h2, h3, h4⟩
    exact ⟨⟨⟨⟨h1.symm, h2.symm⟩, trivial⟩, h3.symm⟩, h4.symm⟩

/-- Stories after a group too small to synthesize: unchanged, group
counted as skipped. -/
theorem processGroup_skip_small (st : WriterState) (s c : String)
    (items : List GroupItem) (wS wE : String) (ai : AiOutcome)
    (hlen : items.length < 3) :
    processGroup st s c items wS wE ai = { st with skipped := st.skipped + 1 } := by
  simp [processGroup, hlen]

/-- Stories after a group whose story already exists: unchanged, group
counted as skipped. -/
theorem processGroup_skip_exists (st : WriterState) (s c : String)
    (items : List GroupItem) (wS wE : String) (ai : AiOutcome)
    (hex : storyAlreadyExists st.stories s c wS wE = true) :
    processGroup st s c items wS wE ai = { st with skipped := st.skipped + 1 } := by
  by_cases hlen : items.length < 3
  · exact processGroup_skip_small st s c items wS wE ai hlen
  · simp [processGroup, hlen, hex]

/-- A successful generation run appends exactly one story row, with the
group's key and the fresh id. -/
theorem processGroup_created_stories (st : WriterState) (s c : String)
    (items : List GroupItem) (wS wE : String) (p : GenParsed)
    (model : Option String) (hlen : ¬ items.length < 3)
    (hex : storyAlreadyExists st.stories s c wS wE = false) :
    (processGroup st s c items wS wE (.parsed p model)).stories
      = st.stories ++ [storyRowOf st.nextStoryId s c wS wE p model] := by
  simp [processGroup, hlen, hex, insertStory, storyRowOf]

/-- Case split on what `processGroup` does to the stories table: either
it is unchanged, or (no story existed for the key and) exactly one row
with exactly the group's key was appended. -/
theorem processGroup_stories_cases (st : WriterState) (s c : String)
    (items : List GroupItem) (wS wE : String) (ai : AiOutcome) :
    (processGroup st s c items wS wE ai).stories = st.stories
    ∨ (storyAlreadyExists st.stories s c wS wE = false ∧
       ∃ row, matchesStoryKey s c wS wE row = true ∧
         (∀ s2 c2 wS2 wE2, matchesStoryKey s2 c2 wS2 wE2 row = true →
           s2 = s ∧ c2 = c ∧ wS2 = wS ∧ wE2 = wE) ∧
         (processGroup st s c items wS wE ai).stories = st.stories ++ [row]) := by
  by_cases hlen : items.length < 3
  · left; rw [processGroup_skip_small st s c items wS wE ai hlen]
  · by_cases hex : storyAlreadyExists st.stories s c wS wE
    · left; rw [processGroup_skip_exists st s c items wS wE ai hex]
    · cases ai with
      | transportError => left; simp [processGroup, hlen, hex]
      | badJson => left; simp [processGroup, hlen, hex]
      | parsed p model =>
        right
        refine ⟨by simpa using hex, storyRowOf st.nextStoryId s c wS wE p model,
          (matchesStoryKey_storyRowOf s c wS wE s c wS wE _ p model).mpr
            ⟨rfl, rfl, rfl, rfl⟩,
          fun s2 c2 wS2 wE2 h =>
            (matchesStoryKey_storyRowOf s c wS wE s2 c2 wS2 wE2 _ p model).mp h,
          processGroup_created_stories st s c items wS wE p model hlen
            (by simpa using hex)⟩

/-- C3: the at-most-one-roundup-per-(state, county, window) property is
preserved by every `processGroup` step; a group whose story already
exists is a no-op apart from the skipped counter; and after a successful
run, running the same group and window again inserts no story row and
counts the group as skipped. -/
theorem story_window_uniqueness (st : WriterState) (s c : String)
    (items : List GroupItem) (wS wE : String) (ai ai2 : AiOutcome)
    (p : GenParsed) (model : Option String)
    (hInv : roundupUnique st.stories) :
    roundupUnique (processGroup st s c items wS wE ai).stories
    ∧ (storyAlreadyExists st.stories s c wS wE = true →
        processGroup st s c items wS wE ai = { st with skipped := st.skipped + 1 })
    ∧ (ai = .parsed p model → 3 ≤ items.length →
        processGroup (processGroup st s c items wS wE ai) s c items wS wE ai2
          = { processGroup st s c items wS wE ai with
              skipped := (processGroup st s c items wS wE ai).skipped + 1 }) := by
  refine ⟨?_, processGroup_skip_exists st s c items wS wE ai, ?_⟩
  · intro s2 c2 wS2 wE2
    rcases processGroup_stories_cases st s c items wS wE ai with h | ⟨hex, row, hself, honly, happ⟩
    · rw [h]; exact hInv s2 c2 wS2 wE2
    · rw [happ, List.filter_append]
      by_cases hkey : s2 = s ∧ c2 = c ∧ wS2 = wS ∧ wE2 = wE
      · obtain ⟨h1, h2, h3, h4⟩ := hkey
        subst h1; subst h2; subst h3; subst h4
        rw [filter_nil_of_not_exists st.stories s2 c2 wS2 wE2 hex]
        simp [hself]
      · have hrow : matchesStoryKey s2 c2 wS2 wE2 row = false := by
          by_contra hc
          exact hkey (honly s2 c2 wS2 wE2 (by simpa using hc))
        simp [hrow]
        exact hInv s2 c2 wS2 wE2
  · intro hai hlen3
    subst hai
    have hlen : ¬ items.length < 3 := by omega
    by_cases hex : storyAlreadyExists st.stories s c wS wE
    · have h1 := processGroup_skip_exists st s c items wS wE (.parsed p model) hex
      have hex2 : storyAlreadyExists
          (processGroup st s c items wS wE (.parsed p model)).stories s c wS wE = true := by
        rw [h1]; exact hex
      exact processGroup_skip_exists _ s c items wS wE ai2 hex2
    · have hst := processGroup_created_stories st s c items wS wE p model hlen
        (by simpa using hex)
      have hex2 : storyAlreadyExists
          (processGroup st s c items wS wE (.parsed p model)).stories s c wS wE = true := by
        rw [hst, storyAlreadyExists, List.any_append]
        have : matchesStoryKey s c wS wE (storyRowOf st.nextStoryId s c wS wE p model) = true :=
          (matchesStoryKey_storyRowOf s c wS wE s c wS wE _ p model).mpr ⟨rfl, rfl, rfl, rfl⟩
        simp [this]
      exact processGroup_skip_exists _ s c items wS wE ai2 hex2

/-- Closed instance of `story_window_uniqueness`: from an empty store, a
created roundup for a 3-item group followed by a second run over the same
window yields a pure skip. -/
theorem story_window_uniqueness_witness :
    processGroup (processGroup emptyWriterState "FL" "Bay" wItems "ws" "we"
        (.parsed wGenParsed none)) "FL" "Bay" wItems "ws" "we"
        (.parsed wGenParsed none)
      = { processGroup emptyWriterState "FL" "Bay" wItems "ws" "we"
            (.parsed wGenParsed none) with
          skipped := (processGroup emptyWriterState "FL" "Bay" wItems "ws" "we"
            (.parsed wGenParsed none)).skipped + 1 } :=
  (story_window_uniqueness emptyWriterState "FL" "Bay" wItems "ws" "we"
    (.parsed wGenParsed none) (.parsed wGenParsed none) wGenParsed none
    (by intro s c wS wE; simp [emptyWriterState, roundupUnique])).2.2 rfl (by decide)

/-! ### C6 — citation selection -/

/-- Membership in the first-occurrence de-duplication. -/
theorem mem_dedupFirstAux {α : Type} [DecidableEq α] (a : α) :
    ∀ (l seen : List α), a ∈ dedupFirstAux seen l ↔ a ∈ l ∧ a ∉ seen := by
  intro l
  induction l with
  | nil => intro seen; simp [dedupFirstAux]
  | cons x xs ih =>
    intro seen
    by_cases hx : x ∈ seen
    · rw [dedupFirstAux, if_pos hx, ih seen]
      constructor
      · rintro ⟨h1, h2⟩; exact ⟨List.mem_cons_of_mem x h1, h2⟩
      · rintro ⟨h1, h2⟩
        rcases List.mem_cons.mp h1 with h | h
        · subst h; exact absurd hx h2
        · exact ⟨h, h2⟩
    · rw [dedupFirstAux, if_neg hx]
      constructor
      · intro h
        rcases List.mem_cons.mp h with h | h
        · subst h; exact ⟨List.mem_cons_self a xs, hx⟩
        · rcases (ih (x :: seen)).mp h with ⟨h1, h2⟩
          exact ⟨List.mem_cons_of_mem x h1,
            fun hs => h2 (List.mem_cons_of_mem x hs)⟩
      · rintro ⟨h1, h2⟩
        rcases List.mem_cons.mp h1 with h | h
        · subst h; exact List.mem_cons_self a _
        · by_cases hax : a = x
          · subst hax; exact List.mem_cons_self a _
          · exact List.mem_cons_of_mem x ((ih (x :: seen)).mpr
              ⟨h, fun hs => (List.mem_cons.mp hs).elim hax h2⟩)

/-- The first-occurrence de-duplication has no duplicates. -/
theorem nodup_dedupFirstAux {α : Type} [DecidableEq α] :
    ∀ (l seen : List α), (dedupFirstAux seen l).Nodup := by
  intro l
  induction l with
  | nil => intro seen; simp [dedupFirstAux]
  | cons x xs ih =>
    intro seen
    by_cases hx : x ∈ seen
    · rw [dedupFirstAux, if_pos hx]; exact ih seen
    · rw [dedupFirstAux, if_neg hx]
      refine List.nodup_cons.mpr ⟨?_, ih (x :: seen)⟩
      intro hmem
      exact ((mem_dedupFirstAux x xs (x :: seen)).mp hmem).2
        (List.mem_cons_self x seen)

/-- Inserting citations for items with pairwise-distinct ids into a table
holding no row for this story appends exactly one row per chosen item. -/
theorem insertCitations_fresh (storyId : Nat) :
    ∀ (chosen : List GroupItem) (db : List StorySourceRow),
      (chosen.map GroupItem.id).Nodup →
      (∀ r ∈ db, ¬(r.storyId = storyId ∧ r.feedItemId ∈ chosen.map GroupItem.id)) →
      chosen.foldl (fun acc it => insertCitation acc storyId it) db
        = db ++ chosen.map (citationRow storyId) := by
  intro chosen
  induction chosen with
  | nil => intro db _ _; simp
  | cons it rest ih =>
    intro db hnd hdb
    have hmemId : it.id ∈ (it :: rest).map GroupItem.id := by simp
    have hins : insertCitation db storyId it = db ++ [citationRow storyId it] := by
      rw [insertCitation, if_neg]
      intro hany
      rcases List.any_eq_true.mp hany with ⟨r, hr, hmatch⟩
      rw [Bool.and_eq_true, beq_iff_eq, beq_iff_eq] at hmatch
      exact hdb r hr ⟨hmatch.1, by rw [hmatch.2]; exact hmemId⟩
    have hnd2 : (rest.map GroupItem.id).Nodup := by
      rw [List.map_cons] at hnd
      exact (List.nodup_cons.mp hnd).2
    have hhead : it.id ∉ rest.map GroupItem.id := by
      rw [List.map_cons] at hnd
      exact (List.nodup_cons.mp hnd).1
    have hdb2 : ∀ r ∈ db ++ [citationRow storyId it],
        ¬(r.storyId = storyId ∧ r.feedItemId ∈ rest.map GroupItem.id) := by
      intro r hr
      rcases List.mem_append.mp hr with hr | hr
      · intro hc
        exact hdb r hr ⟨hc.1, List.mem_cons_of_mem it.id hc.2⟩
      · rw [List.mem_singleton.mp hr]
        intro hc
        exact hhead hc.2
    rw [List.foldl_cons, hins, ih (db ++ [citationRow storyId it]) hnd2 hdb2]
    simp

/-- The chosen citation items inherit pairwise-distinct ids from the
group's item list. -/
theorem chosenCitations_ids_nodup (items : List GroupItem)
    (usedIndexes : List Int) (hIds : (items.map GroupItem.id).Nodup) :
    ((chosenCitations items usedIndexes).map GroupItem.id).Nodup := by
  rw [chosenCitations]
  by_cases hempty : (dedupFirst usedIndexes).isEmpty
  · rw [if_pos hempty, List.map_take]
    exact hIds.sublist (List.take_sublist 6 _)
  · rw [if_neg hempty, List.map_filterMap]
    refine List.Nodup.filterMap ?_ (nodup_dedupFirstAux usedIndexes [])
    intro i i2 b hb hb2
    by_cases h1 : 1 ≤ i
    · by_cases h2 : 1 ≤ i2
      · rw [if_pos h1] at hb
        rw [if_pos h2] at hb2
        rcases Option.map_eq_some'.mp hb with ⟨a, ha, hab⟩
        rcases Option.map_eq_some'.mp hb2 with ⟨a2, ha2, hab2⟩
        have hga : (items.map GroupItem.id)[(i - 1).toNat]? = some b := by
          rw [List.getElem?_map, ha, Option.map_some', hab]
        have hga2 : (items.map GroupItem.id)[(i2 - 1).toNat]? = some b := by
          rw [List.getElem?_map, ha2, Option.map_some', hab2]
        have hlt : (i - 1).toNat < (items.map GroupItem.id).length := by
          rw [List.getElem?_eq_some] at hga
          exact hga.1
        have heq : (i - 1).toNat = (i2 - 1).toNat :=
          List.getElem?_inj hlt hIds (by rw [hga, hga2])
        have e1 : ((i - 1).toNat : Int) = i - 1 := Int.toNat_of_nonneg (by omega)
        have e2 : ((i2 - 1).toNat : Int) = i2 - 1 := Int.toNat_of_nonneg (by omega)
        omega
      · rw [if_neg h2] at hb2
        simp at hb2
    · rw [if_neg h1] at hb
      simp at hb

/-- C6: with an empty `used_source_indexes` the citations fall back to the
first `min(6, length)` items of the group list in supplied order; with a
nonempty list the chosen citations are exactly the items whose 1-based
index appears in `used_source_indexes`; and persisting appends exactly the
chosen citations (given distinct item ids and a fresh story id). -/
theorem citation_selection (items : List GroupItem) (usedIndexes : List Int)
    (db : List StorySourceRow) (storyId : Nat) (it : GroupItem)
    (hIds : (items.map GroupItem.id).Nodup)
    (hFresh : ∀ r ∈ db, r.storyId ≠ storyId) :
    (chosenCitations items [] = items.take 6
      ∧ (chosenCitations items []).length = min 6 items.length)
    ∧ (usedIndexes ≠ [] →
        (it ∈ chosenCitations items usedIndexes ↔
          ∃ i, i ∈ usedIndexes ∧ 1 ≤ i ∧ items[(i - 1).toNat]? = some it))
    ∧ insertStorySources db storyId items usedIndexes
        = db ++ (chosenCitations items usedIndexes).map (citationRow storyId) := by
  have hfallback : chosenCitations items [] = items.take 6 := by
    rw [chosenCitations]
    rfl
  refine ⟨⟨hfallback, by rw [hfallback, List.length_take]⟩, ?_, ?_⟩
  · intro hne
    have hempty : (dedupFirst usedIndexes).isEmpty = false := by
      rcases usedIndexes with _ | ⟨x, xs⟩
      · exact absurd rfl hne
      · rw [dedupFirst, dedupFirstAux, if_neg (List.not_mem_nil x)]
        rfl
    rw [chosenCitations, hempty]
    simp only [Bool.false_eq_true, if_false, List.mem_filterMap]
    constructor
    · rintro ⟨i, hi, hf⟩
      rcases (mem_dedupFirstAux i usedIndexes []).mp hi with ⟨hmem, _⟩
      by_cases h1 : 1 ≤ i
      · rw [if_pos h1] at hf
        exact ⟨i, hmem, h1, hf⟩
      · rw [if_neg h1] at hf
        exact absurd hf (Option.noConfusion)
    · rintro ⟨i, hmem, h1, hf⟩
      refine ⟨i, (mem_dedupFirstAux i usedIndexes []).mpr
        ⟨hmem, List.not_mem_nil i⟩, ?_⟩
      rw [if_pos h1]
      exact hf
  · rw [insertStorySources]
    exact insertCitations_fresh storyId (chosenCitations items usedIndexes) db
      (chosenCitations_ids_nodup items usedIndexes hIds)
      (fun r hr hc => hFresh r hr hc.1)

/-- Closed instance of `citation_selection`: persisting citations for the
3-item group with `used_source_indexes = [2]` appends exactly the chosen
citation rows. -/
theorem citation_selection_witness :
    insertStorySources [] 1 wItems [2]
      = [] ++ (chosenCitations wItems [2]).map (citationRow 1) :=
  (citation_selection wItems [2] [] 1
    { id := 2, title := "t2", link := "l2", publishedAt := none, summary := "",
      state := "FL", county := "Bay", sourceName := "s" }
    (by decide) (by intro r hr; simp at hr)).2.2

/-! ### C1 — citations versus the offered prompt window -/

/-- C1 (evaluation at the failing input): for a 21-item group where the
generation response reports `used_source_indexes = [21]`, the chosen and
persisted citation is the 21st item of the group, yet the numbered source
list supplied to the generation call (`items.slice(0, 20)`) contains no
item with id 21 — the citation references an item never offered in the
prompt. -/
theorem citation_beyond_prompt_window :
    chosenCitations c1Items [21]
      = [{ id := 21, title := "t", link := "l", publishedAt := none,
           summary := "", state := "FL", county := "Bay", sourceName := "s" }]
    ∧ (∀ it2 ∈ promptOfferedItems c1Items, it2.id ≠ 21)
    ∧ (processGroup emptyWriterState "FL" "Bay" c1Items "ws" "we"
        (.parsed { title := none, dek := none, bullets := none,
                   bodyMarkdown := none, usedSourceIndexes := some [21] }
          none)).storySources
      = [{ storyId := 1, feedItemId := 21, sourceLink := "l",
           sourceTitle := "t", sourcePublishedAt := none }] := by
  refine ⟨by decide, by decide, by decide⟩

/-! ### C8 — what the write result distinguishes -/

/-- C8 counterexample: with a detected unique column, writing an article
against a table where its row is absent and against a table where it is
already present produces the same `{ didWrite: true }` outcome — the
first call creates a row (0 to 1) and the second creates none (1 to 1),
so the return value does not distinguish new from already present. -/
theorem writeone_blind_to_presence :
    (writeOne sampleEnv "now" [] c8Cols (pickUniqueKeyColumn c8Cols)
        "tag" "FL" "q" c8Article).2
      = (writeOne sampleEnv "now" [c8Row] c8Cols (pickUniqueKeyColumn c8Cols)
        "tag" "FL" "q" c8Article).2
    ∧ (writeOne sampleEnv "now" [] c8Cols (pickUniqueKeyColumn c8Cols)
        "tag" "FL" "q" c8Article).1.length = 1
    ∧ (writeOne sampleEnv "now" [c8Row] c8Cols (pickUniqueKeyColumn c8Cols)
        "tag" "FL" "q" c8Article).1.length = 1 := by
  refine ⟨by decide, by decide, by decide⟩

/-- C8 amended: the write result is independent of the table's existing
contents (so it cannot distinguish a new row from an already-present
one); it does distinguish a performed write (`didWrite = true`, no
reason) from a draft rejected locally before any SQL (`didWrite = false`
with a reason, table unchanged). -/
theorem writeone_outcome_semantics (env : JsEnv) (now : String)
    (db db2 : List AdaptiveRow) (cols : List String)
    (conflictColumn : Option String) (regionTag state query : String)
    (a : GdeltArticle) :
    (writeOne env now db cols conflictColumn regionTag state query a).2
      = (writeOne env now db2 cols conflictColumn regionTag state query a).2
    ∧ ((writeOne env now db cols conflictColumn regionTag state query a).2.didWrite
          = false →
        (writeOne env now db cols conflictColumn regionTag state query a).1 = db
        ∧ (writeOne env now db cols conflictColumn regionTag state
            query a).2.reason.isSome = true)
    ∧ ((writeOne env now db cols conflictColumn regionTag state query a).2.didWrite
          = true →
        (writeOne env now db cols conflictColumn regionTag state query a).2.reason
          = none) := by
  unfold writeOne
  by_cases h1 : (buildRowForTable env now cols regionTag state query a).isEmpty = true
  · simp [h1]
  · by_cases h2 : "state" ∈ cols ∧ cellTruthy
        ((buildRowForTable env now cols regionTag state query a).lookup "state") = false
    · simp [h1, h2]
    · cases conflictColumn with
      | none => simp [h1, h2]
      | some c =>
        by_cases h3 : cellTruthy
            ((buildRowForTable env now cols regionTag state query a).lookup c) = false
        · simp [h1, h2, h3]
        · simp [h1, h2, h3]

/-- Closed instance of `writeone_outcome_semantics`: an article without a
value for the conflict column is rejected locally with a reason and the
table is unchanged. -/
theorem writeone_outcome_semantics_witness :
    (writeOne sampleEnv "now" [] c8Cols (some "url") "tag" "FL" "q"
        emptyGdeltArticle).1 = []
    ∧ (writeOne sampleEnv "now" [] c8Cols (some "url") "tag" "FL" "q"
        emptyGdeltArticle).2.reason.isSome = true :=
  (writeone_outcome_semantics sampleEnv "now" [] [] c8Cols (some "url")
    "tag" "FL" "q" emptyGdeltArticle).2.1 (by decide)
